import Mathlib

/-!
Verification of the event ingestion and reconciliation pipeline of the
allo-event-tracker service.

The development shallowly embeds the two near-duplicate network-integration
modules (the stock-manager-schema `Web3Service` and the events-schema
`Web3Service`), the dedup/persistence gate, the backfill window loop, the
manual-backfill HTTP endpoint and the connection pass.  Blockchain RPC
capabilities (signature hashing, block-timestamp lookup, wall-clock time,
chain liveness, subscription outcome) are modelled as explicit environment
parameters; the persistent store is modelled as a list of persisted records.
-/

namespace AlloEventTracker

/-- JS `String.prototype.toLowerCase()` on ASCII strings, modelled on the
character list of the string (kernel-reducible, unlike `String.map`). -/
def toLowerStr (s : String) : String := ⟨s.data.map Char.toLower⟩

/-- JS `!url || url.trim() === ''`: the string is empty or all whitespace. -/
def isBlankStr (s : String) : Bool := s.data.all Char.isWhitespace

/-- `ContractConfig` of the web3 service modules: contract address and
human-readable name. -/
structure ContractConfig where
  address : String
  name : String
deriving DecidableEq

/-- `BlockchainConfig` of the web3 service modules. -/
structure BlockchainConfig where
  name : String
  wssUrl : String
  chainId : Int
  contracts : List ContractConfig
deriving DecidableEq

/-- A raw log delivered by the chain client.  Optional fields model JS
`undefined`: the source checks `!log.data`, `!log.blockNumber`,
`!log.transactionHash`, `log.address?` before using them.  `data` is the
ABI payload, modelled as the list of decoded 256-bit words it contains. -/
structure RawLog where
  address : Option String
  topics : List String
  data : Option (List Nat)
  blockNumber : Option Nat
  transactionHash : Option String
deriving DecidableEq

/-- The blockchain-RPC capabilities a connected `Web3` instance provides to
the pipeline: `web3.utils.sha3`, `web3.eth.getBlock(n).timestamp` (with
`none` for lookup failure or a missing timestamp), and the current
wall-clock time as an ISO string (`new Date().toISOString()`). -/
structure Web3Env where
  sha3 : String → String
  blockTimestamp : Nat → Option Nat
  now : String

/-- Rendering of `new Date(ts * 1000).toISOString()` for a block timestamp
`ts`; the exact ISO format is irrelevant to the claims, only that it is a
function of `ts`. -/
def isoOfTimestamp (ts : Nat) : String := "iso:" ++ toString ts

/-- `getBlockDateFromTimestamp` (identical in both service modules): returns
`(date, timestamp)`.  On a successful lookup the date is the ISO rendering
of the block timestamp and the raw timestamp is kept as a decimal string;
on failure or absence both fields degrade to the current wall-clock time. -/
def getBlockDateFromTimestamp (env : Web3Env) (blockNumber : Nat) : String × String :=
  match env.blockTimestamp blockNumber with
  | some ts => (isoOfTimestamp ts, toString ts)
  | none => (env.now, env.now)

/-- The canonical Deposited event prototype string hashed for the signature
topic filter. -/
def depositedPrototype : String :=
  "Deposited(address,address,address,uint256,uint256,uint256)"

/-- The canonical Redeemed event prototype string hashed for the signature
topic filter. -/
def redeemedPrototype : String :=
  "Redeemed(address,address,address,uint256,uint256,uint256)"

/-- Result of `web3.eth.abi.decodeLog` for the shared 3-indexed-address,
3-uint256 ABI shape: the three address topics and the three non-indexed
words of the payload in positional order. -/
structure DecodedLog where
  user : String
  assetToken : String
  stablecoin : String
  word0 : Nat
  word1 : Nat
  word2 : Nat
deriving DecidableEq

/-- `web3.eth.abi.decodeLog(inputs, log.data, [log.topics[1..3]])` for the
Deposited/Redeemed ABI: succeeds exactly when the payload holds three words
and at least four topics are present; otherwise the decode throws, modelled
as `none`. -/
def decodeLog (log : RawLog) : Option DecodedLog :=
  match log.data, log.topics with
  | some [w0, w1, w2], _t0 :: t1 :: t2 :: t3 :: _ =>
    some { user := t1, assetToken := t2, stablecoin := t3,
           word0 := w0, word1 := w1, word2 := w2 }
  | _, _ => none

/-- The validation guard of `processDepositedEvent` / `processRedeemedEvent`
in the stock-manager module:
`!log.data || !log.topics || log.topics.length < 4 || !log.blockNumber ||
!log.transactionHash` (negated). -/
def logHasRequiredFields (log : RawLog) : Bool :=
  log.data.isSome && decide (4 ≤ log.topics.length)
    && log.blockNumber.isSome && log.transactionHash.isSome

/-- The per-kind payload `eventData` built by the processing functions; both
kinds populate the same keys, with decimal-string numeric fields. -/
structure EventPayload where
  user : String
  assetToken : String
  stablecoin : String
  amount : String
  tokenAmount : String
  fee : String
deriving DecidableEq

/-- `BlockchainEventData`, the normalized event handed to the gate. -/
structure BlockchainEventData where
  chainName : String
  contractAddress : String
  eventName : String
  eventData : EventPayload
  blockNumber : Nat
  txHash : String
  timestamp : String
  date : String
deriving DecidableEq

/-- The persisted `stock_manager_events` record (fields produced by the
gate; generated columns omitted).  The four kind-specific columns are
`Option` because the gate assigns them only inside the per-kind branches. -/
structure StockManagerEvent where
  network : String
  event_type : String
  wallet_address : String
  asset_token_address : String
  stablecoin_address : String
  fee : String
  block_number : Nat
  transaction_hash : String
  timestamp : String
  date : String
  amount_deposited : Option String
  tokens_minted : Option String
  tokens_redeemed : Option String
  amount_returned : Option String
deriving DecidableEq

/-- `StockManagerEventRepository.findByTxHash`: first stored record whose
`transaction_hash` equals the queried hash. -/
def findByTxHash (store : List StockManagerEvent) (txHash : String) :
    Option StockManagerEvent :=
  store.find? (fun e => e.transaction_hash == txHash)

/-- Outcome of the dedup/persistence gate. -/
inductive StoreOutcome where
  | Stored
  | Skipped
deriving DecidableEq

/-- The record built by `storeEventInDatabase` (stock-manager module) from
a `BlockchainEventData`, including the kind-specific branch that populates
deposit columns and zeroes redemption columns or vice versa. -/
def mkDbEvent (ed : BlockchainEventData) : StockManagerEvent :=
  let base : StockManagerEvent :=
    { network := ed.chainName
      event_type := toLowerStr ed.eventName
      wallet_address := ed.eventData.user
      asset_token_address := ed.eventData.assetToken
      stablecoin_address := ed.eventData.stablecoin
      fee := ed.eventData.fee
      block_number := ed.blockNumber
      transaction_hash := ed.txHash
      timestamp := ed.timestamp
      date := ed.date
      amount_deposited := none
      tokens_minted := none
      tokens_redeemed := none
      amount_returned := none }
  if toLowerStr ed.eventName == "deposited" then
    { base with
      amount_deposited := some ed.eventData.amount
      tokens_minted := some ed.eventData.tokenAmount
      tokens_redeemed := some "0"
      amount_returned := some "0" }
  else if toLowerStr ed.eventName == "redeemed" then
    { base with
      tokens_redeemed := some ed.eventData.tokenAmount
      amount_returned := some ed.eventData.amount
      amount_deposited := some "0"
      tokens_minted := some "0" }
  else base

/-- `storeEventInDatabase` (stock-manager module): look up by transaction
hash; if found, skip without writing; otherwise map to the persisted shape
and append it to the store. -/
def storeEventInDatabase (store : List StockManagerEvent)
    (ed : BlockchainEventData) : List StockManagerEvent × StoreOutcome :=
  match findByTxHash store ed.txHash with
  | some _ => (store, StoreOutcome.Skipped)
  | none => (store ++ [mkDbEvent ed], StoreOutcome.Stored)

/-- The store-independent phase of a per-kind processing function:
validation rejected the log, the ABI decode threw, or a normalized
`BlockchainEventData` was produced. -/
inductive DecodePhase where
  | rejected
  | decodeFailed
  | ok (ed : BlockchainEventData)
deriving DecidableEq

/-- Lines 200-243 of the stock-manager `processDepositedEvent`: validation
guard, ABI decode with field order (amount, tokenAmount, fee), block
timestamp resolution, and construction of the normalized event. -/
def depositedPhase (env : Web3Env) (chainName : String)
    (contract : ContractConfig) (log : RawLog) : DecodePhase :=
  if logHasRequiredFields log then
    match decodeLog log with
    | some d =>
      let ts := getBlockDateFromTimestamp env (log.blockNumber.getD 0)
      DecodePhase.ok
        { chainName := chainName
          contractAddress := contract.address
          eventName := "Deposited"
          eventData :=
            { user := d.user, assetToken := d.assetToken,
              stablecoin := d.stablecoin,
              amount := toString d.word0,
              tokenAmount := toString d.word1,
              fee := toString d.word2 }
          blockNumber := log.blockNumber.getD 0
          txHash := log.transactionHash.getD ""
          timestamp := ts.2
          date := ts.1 }
    | none => DecodePhase.decodeFailed
  else DecodePhase.rejected

/-- Lines 252-296 of the stock-manager `processRedeemedEvent`: identical to
the Deposited phase except that the non-indexed payload is decoded in the
order (tokenAmount, amount, fee). -/
def redeemedPhase (env : Web3Env) (chainName : String)
    (contract : ContractConfig) (log : RawLog) : DecodePhase :=
  if logHasRequiredFields log then
    match decodeLog log with
    | some d =>
      let ts := getBlockDateFromTimestamp env (log.blockNumber.getD 0)
      DecodePhase.ok
        { chainName := chainName
          contractAddress := contract.address
          eventName := "Redeemed"
          eventData :=
            { user := d.user, assetToken := d.assetToken,
              stablecoin := d.stablecoin,
              tokenAmount := toString d.word0,
              amount := toString d.word1,
              fee := toString d.word2 }
          blockNumber := log.blockNumber.getD 0
          txHash := log.transactionHash.getD ""
          timestamp := ts.2
          date := ts.1 }
    | none => DecodePhase.decodeFailed
  else DecodePhase.rejected

/-- Observable result of one per-kind processing call: the store afterwards,
whether the ABI decode was invoked, and the gate outcome when the gate was
reached (`none` when the log was dropped before the gate). -/
structure ProcResult where
  store : List StockManagerEvent
  decodeAttempted : Bool
  outcome : Option StoreOutcome
deriving DecidableEq

/-- Apply a computed decode phase to the store: a rejected log performs no
decode and no write, a failed decode is caught with no write, and a
normalized event goes through `storeEventInDatabase`. -/
def processWithPhase (phase : DecodePhase) (store : List StockManagerEvent) :
    ProcResult :=
  match phase with
  | DecodePhase.rejected => { store := store, decodeAttempted := false, outcome := none }
  | DecodePhase.decodeFailed => { store := store, decodeAttempted := true, outcome := none }
  | DecodePhase.ok ed =>
    let r := storeEventInDatabase store ed
    { store := r.1, decodeAttempted := true, outcome := some r.2 }

/-- Stock-manager `processDepositedEvent`: validate, decode, resolve the
timestamp, then store. -/
def processDepositedEvent (env : Web3Env) (chainName : String)
    (contract : ContractConfig) (log : RawLog)
    (store : List StockManagerEvent) : ProcResult :=
  processWithPhase (depositedPhase env chainName contract log) store

/-- Stock-manager `processRedeemedEvent`: validate, decode, resolve the
timestamp, then store. -/
def processRedeemedEvent (env : Web3Env) (chainName : String)
    (contract : ContractConfig) (log : RawLog)
    (store : List StockManagerEvent) : ProcResult :=
  processWithPhase (redeemedPhase env chainName contract log) store

/-- Which per-kind processing function a log was routed to. -/
inductive EventKind where
  | Deposited
  | Redeemed
deriving DecidableEq

/-- Observable result of one `processLog` call.  `sha3Calls` records the
prototype strings passed to `web3.utils.sha3` during the call; `routed`
records which per-kind handler (if any) the log was dispatched to. -/
structure LogProcResult where
  store : List StockManagerEvent
  decodeAttempted : Bool
  outcome : Option StoreOutcome
  sha3Calls : List String
  routed : Option EventKind
deriving DecidableEq

/-- Stock-manager `processLog`: resolve the owning contract by
case-insensitive address, compute the two signature hashes with
`web3.utils.sha3`, compare `log.topics[0]` against them and dispatch; an
unknown signature is logged at debug level and dropped. -/
def processLog (env : Web3Env) (chainName : String)
    (contracts : List ContractConfig) (log : RawLog)
    (store : List StockManagerEvent) : LogProcResult :=
  match log.address with
  | none =>
    { store := store, decodeAttempted := false, outcome := none,
      sha3Calls := [], routed := none }
  | some addr =>
    match contracts.find? (fun c => toLowerStr c.address == toLowerStr addr) with
    | none =>
      { store := store, decodeAttempted := false, outcome := none,
        sha3Calls := [], routed := none }
    | some contract =>
      let depositedSignature := env.sha3 depositedPrototype
      let redeemedSignature := env.sha3 redeemedPrototype
      let calls := [depositedPrototype, redeemedPrototype]
      if log.topics.head? == some depositedSignature then
        let r := processDepositedEvent env chainName contract log store
        { store := r.store, decodeAttempted := r.decodeAttempted,
          outcome := r.outcome, sha3Calls := calls,
          routed := some EventKind.Deposited }
      else if log.topics.head? == some redeemedSignature then
        let r := processRedeemedEvent env chainName contract log store
        { store := r.store, decodeAttempted := r.decodeAttempted,
          outcome := r.outcome, sha3Calls := calls,
          routed := some EventKind.Redeemed }
      else
        { store := store, decodeAttempted := false, outcome := none,
          sha3Calls := calls, routed := none }

/-- Stock-manager `processEventWithDeduplication` (backfill path): look up
by transaction hash first; if present, return `false` (counted as skipped)
without any write; otherwise run the per-kind processing and return
`true`. -/
def processEventWithDeduplication (env : Web3Env) (chainName : String)
    (contract : ContractConfig) (log : RawLog) (eventType : EventKind)
    (store : List StockManagerEvent) : List StockManagerEvent × Bool :=
  match findByTxHash store (log.transactionHash.getD "") with
  | some _ => (store, false)
  | none =>
    match eventType with
    | EventKind.Deposited =>
      ((processDepositedEvent env chainName contract log store).store, true)
    | EventKind.Redeemed =>
      ((processRedeemedEvent env chainName contract log store).store, true)

/-- The window loop of `fetchAndStoreContractEvents` /
`fetchAndStoreContractEventsWithDeduplication`:
`for (let block = fromBlock; block <= toBlock; block += batchSize)` with
`endBlock = min(block + batchSize - 1, toBlock)`. -/
def backfillWindows (fromBlock toBlock batchSize : Nat) : List (Nat × Nat) :=
  if _h : 0 < batchSize ∧ fromBlock ≤ toBlock then
    (fromBlock, min (fromBlock + batchSize - 1) toBlock)
      :: backfillWindows (fromBlock + batchSize) toBlock batchSize
  else
    []
termination_by toBlock + 1 - fromBlock
decreasing_by omega

/-- The `getPastLogs` queries issued by the backfill loop over a block
range with the reference batch size 1000: two per window, one filtered on
the Deposited signature topic and one on the Redeemed signature topic. -/
def backfillPastLogQueries (fromBlock toBlock : Nat) :
    List (Nat × Nat × String) :=
  (backfillWindows fromBlock toBlock 1000).flatMap
    (fun w => [(w.1, w.2, depositedPrototype), (w.1, w.2, redeemedPrototype)])

/-- `backfillLastBlocks` start-of-range computation:
`Math.max(0, Number(currentBlock) - blockCount)`. -/
def backfillFromBlock (currentBlock blockCount : Int) : Int :=
  max 0 (currentBlock - blockCount)

/-- The manual-backfill endpoint (`POST /web3/trigger-backfill` composed
with `triggerManualBackfill`/`backfillLastBlocks` for one connected network
at `currentBlock`): the controller rejects the request when
`blockCount <= 0 || blockCount > 50000` before `triggerManualBackfill` is
invoked, so no historical-log query is issued; otherwise the per-contract
window queries over `[max 0 (currentBlock - blockCount), currentBlock]`
are issued. -/
def triggerBackfillEndpoint (currentBlock blockCount : Int) :
    Except String (List (Nat × Nat × String)) :=
  if blockCount ≤ 0 ∨ blockCount > 50000 then
    Except.error "Block count must be between 1 and 50000"
  else
    Except.ok (backfillPastLogQueries
      (backfillFromBlock currentBlock blockCount).toNat currentBlock.toNat)

/-- JS `x || fallback` for an optional numeric argument: the fallback is
used when the argument is absent or falsy (numeric `0`). -/
def jsOrInt (x : Option Int) (fallback : Int) : Int :=
  match x with
  | some v => if v = 0 then fallback else v
  | none => fallback

/-- Start-of-scan computation of `storePreviousEventsForChain` in the
stock-manager module:
`fromBlock || Math.max(0, Number(currentBlock) - 80000)`. -/
def storePreviousStartStock (fromBlock : Option Int) (currentBlock : Int) : Int :=
  jsOrInt fromBlock (max 0 (currentBlock - 80000))

/-- Start-of-scan computation of `storePreviousEventsForChain` in the
events-schema module:
`fromBlock || Math.max(0, Number(currentBlock) - 100000)`. -/
def storePreviousStartEvents (fromBlock : Option Int) (currentBlock : Int) : Int :=
  jsOrInt fromBlock (max 0 (currentBlock - 100000))

/-- The persisted `events` record of the events-schema module (generated
columns omitted; `event_data` jsonb column kept as the payload). -/
structure EventRecord where
  chain_name : String
  event_type : String
  contract_address : String
  tx_hash : String
  block_number : Nat
  user : String
  asset_token : String
  stablecoin : String
  amount : String
  token_amount : String
  fee : String
  event_data : EventPayload
  timestamp : String
  date : String
deriving DecidableEq

/-- `EventRepository.findByTxHash` of the events-schema module. -/
def findByTxHashEvents (store : List EventRecord) (txHash : String) :
    Option EventRecord :=
  store.find? (fun e => e.tx_hash == txHash)

/-- The record built by the events-schema `storeEventInDatabase`. -/
def mkEventRecord (ed : BlockchainEventData) : EventRecord :=
  { chain_name := ed.chainName
    event_type := toLowerStr ed.eventName
    contract_address := ed.contractAddress
    tx_hash := ed.txHash
    block_number := ed.blockNumber
    user := ed.eventData.user
    asset_token := ed.eventData.assetToken
    stablecoin := ed.eventData.stablecoin
    amount := ed.eventData.amount
    token_amount := ed.eventData.tokenAmount
    fee := ed.eventData.fee
    event_data := ed.eventData
    timestamp := ed.timestamp
    date := ed.date }

/-- Events-schema `storeEventInDatabase`: same existence-check-then-insert
gate keyed on the transaction hash. -/
def storeEventInDatabaseEvents (store : List EventRecord)
    (ed : BlockchainEventData) : List EventRecord × StoreOutcome :=
  match findByTxHashEvents store ed.txHash with
  | some _ => (store, StoreOutcome.Skipped)
  | none => (store ++ [mkEventRecord ed], StoreOutcome.Stored)

/-- Observable result of an events-schema per-kind processing call. -/
structure EventsProcResult where
  store : List EventRecord
  decodeAttempted : Bool
  outcome : Option StoreOutcome
deriving DecidableEq

/-- Events-schema `processDepositedEvent` (part lacking the validation
guard of its stock-manager twin): the ABI decode is invoked immediately on
the incoming log; a decode throw is caught by the surrounding try with
nothing stored.  A missing `blockNumber`/`transactionHash` is defaulted
where the source would propagate `undefined`/`NaN`. -/
def processDepositedEventEvents (env : Web3Env) (chainName : String)
    (contract : ContractConfig) (log : RawLog) (store : List EventRecord) :
    EventsProcResult :=
  match decodeLog log with
  | none => { store := store, decodeAttempted := true, outcome := none }
  | some d =>
    let ts := getBlockDateFromTimestamp env (log.blockNumber.getD 0)
    let ed : BlockchainEventData :=
      { chainName := chainName
        contractAddress := contract.address
        eventName := "Deposited"
        eventData :=
          { user := d.user, assetToken := d.assetToken,
            stablecoin := d.stablecoin,
            amount := toString d.word0,
            tokenAmount := toString d.word1,
            fee := toString d.word2 }
        blockNumber := log.blockNumber.getD 0
        txHash := log.transactionHash.getD ""
        timestamp := ts.2
        date := ts.1 }
    let r := storeEventInDatabaseEvents store ed
    { store := r.1, decodeAttempted := true, outcome := some r.2 }

/-- Connection-pass environment: the outcome of the `getChainId` liveness
probe per network and of the log-subscription request per network. -/
structure ConnEnv where
  chainIdOk : BlockchainConfig → Bool
  subscribeOk : String → Bool

/-- Connection-manager state: the networks with a held connection
(`web3Connections` keys) and the registered subscription keys
(`subscriptions` keys, `chainName-logs`). -/
structure ConnState where
  connections : List String
  subscriptions : List String
deriving DecidableEq

/-- `subscribeToEvents`: requires a held connection for the chain; on
subscription success registers the `chainName-logs` key; a subscription
failure is caught and logged, leaving the state unchanged. -/
def subscribeToEvents (env : ConnEnv) (chainName : String) (st : ConnState) :
    ConnState :=
  if st.connections.contains chainName then
    if env.subscribeOk chainName then
      { st with subscriptions := st.subscriptions ++ [chainName ++ "-logs"] }
    else st
  else st

/-- `connectToChain`: fails when the configured URL is blank or the
`getChainId` liveness probe fails; otherwise records the connection and
establishes the log subscription for the chain. -/
def connectToChain (env : ConnEnv) (config : BlockchainConfig)
    (st : ConnState) : Except String ConnState :=
  if isBlankStr config.wssUrl then
    Except.error ("WebSocket URL is empty for chain: " ++ config.name)
  else if env.chainIdOk config = false then
    Except.error "getChainId failed"
  else
    let st1 : ConnState := { st with connections := st.connections ++ [config.name] }
    Except.ok (subscribeToEvents env config.name st1)

/-- `connectToMultipleChains`: connect each configured network in turn,
catching and logging a per-network failure so the remaining networks are
still attempted. -/
def connectToMultipleChains (env : ConnEnv)
    (configs : List BlockchainConfig) (st : ConnState) : ConnState :=
  match configs with
  | [] => st
  | config :: rest =>
    let st1 :=
      match connectToChain env config st with
      | Except.ok s => s
      | Except.error _ => st
    connectToMultipleChains env rest st1

/-! ## Helper lemmas about the dedup/persistence gate -/

lemma mkDbEvent_transaction_hash (ed : BlockchainEventData) :
    (mkDbEvent ed).transaction_hash = ed.txHash := by
  unfold mkDbEvent
  dsimp only
  split
  · rfl
  · split
    · rfl
    · rfl

lemma countP_txHash_of_find_none (store : List StockManagerEvent) (tx : String)
    (h : findByTxHash store tx = none) :
    store.countP (fun e => e.transaction_hash == tx) = 0 := by
  rw [List.countP_eq_zero]
  intro a ha
  exact List.find?_eq_none.mp h a ha

lemma findByTxHash_append_one (store : List StockManagerEvent)
    (r : StockManagerEvent) (tx : String)
    (h : findByTxHash store tx = none) (hr : (r.transaction_hash == tx) = true) :
    findByTxHash (store ++ [r]) tx = some r := by
  unfold findByTxHash at h ⊢
  rw [List.find?_append, h]
  simp [List.find?, hr]

lemma depositedPhase_ok_txHash (env : Web3Env) (cn : String)
    (c : ContractConfig) (log : RawLog) (ed : BlockchainEventData)
    (h : depositedPhase env cn c log = DecodePhase.ok ed) :
    ed.txHash = log.transactionHash.getD "" := by
  unfold depositedPhase at h
  split at h
  · cases hd : decodeLog log with
    | none => rw [hd] at h; cases h
    | some d =>
      rw [hd] at h
      dsimp only at h
      cases h
      rfl
  · cases h

lemma redeemedPhase_ok_txHash (env : Web3Env) (cn : String)
    (c : ContractConfig) (log : RawLog) (ed : BlockchainEventData)
    (h : redeemedPhase env cn c log = DecodePhase.ok ed) :
    ed.txHash = log.transactionHash.getD "" := by
  unfold redeemedPhase at h
  split at h
  · cases hd : decodeLog log with
    | none => rw [hd] at h; cases h
    | some d =>
      rw [hd] at h
      dsimp only at h
      cases h
      rfl
  · cases h

lemma storeEventInDatabase_new (store : List StockManagerEvent)
    (ed : BlockchainEventData) (h : findByTxHash store ed.txHash = none) :
    storeEventInDatabase store ed =
      (store ++ [mkDbEvent ed], StoreOutcome.Stored) := by
  unfold storeEventInDatabase
  rw [h]

lemma storeEventInDatabase_dup (store : List StockManagerEvent)
    (ed : BlockchainEventData) (r : StockManagerEvent)
    (h : findByTxHash store ed.txHash = some r) :
    storeEventInDatabase store ed = (store, StoreOutcome.Skipped) := by
  unfold storeEventInDatabase
  rw [h]

lemma processWithPhase_ok (ed : BlockchainEventData)
    (store : List StockManagerEvent) :
    processWithPhase (DecodePhase.ok ed) store =
      { store := (storeEventInDatabase store ed).1, decodeAttempted := true,
        outcome := some (storeEventInDatabase store ed).2 } := rfl

/-- Running one store-independent decode phase twice against the same
store: the first run stores once, the second finds the record by
transaction hash and skips without writing. -/
lemma phase_run_twice (phase : DecodePhase) (store0 : List StockManagerEvent)
    (tx : String)
    (htx : ∀ ed, phase = DecodePhase.ok ed → ed.txHash = tx)
    (h1 : findByTxHash store0 tx = none)
    (h2 : (processWithPhase phase store0).outcome = some StoreOutcome.Stored) :
    ((processWithPhase phase store0).store.countP
        (fun e => e.transaction_hash == tx) = 1) ∧
    (∃ r, findByTxHash (processWithPhase phase store0).store tx = some r) ∧
    processWithPhase phase (processWithPhase phase store0).store =
      { store := (processWithPhase phase store0).store,
        decodeAttempted := true, outcome := some StoreOutcome.Skipped } := by
  cases phase with
  | rejected => simp [processWithPhase] at h2
  | decodeFailed => simp [processWithPhase] at h2
  | ok ed =>
    have htx2 : ed.txHash = tx := htx ed rfl
    have h1e : findByTxHash store0 ed.txHash = none := by rw [htx2]; exact h1
    have hbeq : ((mkDbEvent ed).transaction_hash == tx) = true := by
      rw [mkDbEvent_transaction_hash, htx2]
      exact beq_self_eq_true tx
    have hfind : findByTxHash (store0 ++ [mkDbEvent ed]) tx = some (mkDbEvent ed) :=
      findByTxHash_append_one store0 (mkDbEvent ed) tx h1 hbeq
    have hfinde : findByTxHash (store0 ++ [mkDbEvent ed]) ed.txHash
        = some (mkDbEvent ed) := by rw [htx2]; exact hfind
    have hres : processWithPhase (DecodePhase.ok ed) store0 =
        { store := store0 ++ [mkDbEvent ed], decodeAttempted := true,
          outcome := some StoreOutcome.Stored } := by
      rw [processWithPhase_ok, storeEventInDatabase_new store0 ed h1e]
    rw [hres]
    refine ⟨?_, ⟨mkDbEvent ed, hfind⟩, ?_⟩
    · dsimp only
      rw [List.countP_append, countP_txHash_of_find_none store0 tx h1]
      simp [List.countP, List.countP.go, hbeq]
    · dsimp only
      rw [processWithPhase_ok,
        storeEventInDatabase_dup (store0 ++ [mkDbEvent ed]) ed (mkDbEvent ed) hfinde]

/-- Unfolded dispatch shape of `processLog` once the owning contract has
been resolved. -/
lemma processLog_dispatch (env : Web3Env) (cn : String)
    (contracts : List ContractConfig) (log : RawLog)
    (store : List StockManagerEvent) (addr : String) (contract : ContractConfig)
    (ha : log.address = some addr)
    (hf : contracts.find? (fun c => toLowerStr c.address == toLowerStr addr)
            = some contract) :
    processLog env cn contracts log store =
      (if log.topics.head? == some (env.sha3 depositedPrototype) then
        { store := (processDepositedEvent env cn contract log store).store,
          decodeAttempted := (processDepositedEvent env cn contract log store).decodeAttempted,
          outcome := (processDepositedEvent env cn contract log store).outcome,
          sha3Calls := [depositedPrototype, redeemedPrototype],
          routed := some EventKind.Deposited }
      else if log.topics.head? == some (env.sha3 redeemedPrototype) then
        { store := (processRedeemedEvent env cn contract log store).store,
          decodeAttempted := (processRedeemedEvent env cn contract log store).decodeAttempted,
          outcome := (processRedeemedEvent env cn contract log store).outcome,
          sha3Calls := [depositedPrototype, redeemedPrototype],
          routed := some EventKind.Redeemed }
      else
        { store := store, decodeAttempted := false, outcome := none,
          sha3Calls := [depositedPrototype, redeemedPrototype],
          routed := none }) := by
  simp only [processLog, ha, hf]

lemma processEventWithDeduplication_dup (env : Web3Env) (cn : String)
    (contract : ContractConfig) (log : RawLog) (k : EventKind)
    (store : List StockManagerEvent) (r : StockManagerEvent)
    (h : findByTxHash store (log.transactionHash.getD "") = some r) :
    processEventWithDeduplication env cn contract log k store = (store, false) := by
  unfold processEventWithDeduplication
  rw [h]

/-! ## Claim theorems -/

/-- C1: ingestion is idempotent per transaction hash.  For any raw log
whose first ingestion run stores a record into a store that did not yet
hold its transaction hash, the resulting store holds exactly one record
with that hash, and a second run of the pipeline on the same log leaves
the store unchanged with the gate reporting `Skipped`; the backfill-path
dedup check likewise finds the existing record and performs no write. -/
theorem ingestion_idempotent (env : Web3Env) (cn : String)
    (contracts : List ContractConfig) (log : RawLog)
    (store0 : List StockManagerEvent)
    (h1 : findByTxHash store0 (log.transactionHash.getD "") = none)
    (h2 : (processLog env cn contracts log store0).outcome
            = some StoreOutcome.Stored) :
    ((processLog env cn contracts log store0).store.countP
        (fun e => e.transaction_hash == log.transactionHash.getD "") = 1) ∧
    (processLog env cn contracts log
        (processLog env cn contracts log store0).store).store
      = (processLog env cn contracts log store0).store ∧
    (processLog env cn contracts log
        (processLog env cn contracts log store0).store).outcome
      = some StoreOutcome.Skipped ∧
    (∀ contract eventType,
      processEventWithDeduplication env cn contract log eventType
          (processLog env cn contracts log store0).store
        = ((processLog env cn contracts log store0).store, false)) := by
  cases ha : log.address with
  | none => simp [processLog, ha] at h2
  | some addr =>
    cases hf : contracts.find? (fun c => toLowerStr c.address == toLowerStr addr) with
    | none => simp [processLog, ha, hf] at h2
    | some contract =>
      have hdisp := fun s =>
        processLog_dispatch env cn contracts log s addr contract ha hf
      rw [hdisp] at h2
      by_cases hd1 : (log.topics.head? == some (env.sha3 depositedPrototype)) = true
      · rw [if_pos hd1] at h2
        have key := phase_run_twice (depositedPhase env cn contract log) store0
          (log.transactionHash.getD "")
          (fun ed hed => depositedPhase_ok_txHash env cn contract log ed hed)
          h1 h2
        obtain ⟨hcount, ⟨r, hfound⟩, hsecond⟩ := key
        simp only [hdisp, if_pos hd1]
        unfold processDepositedEvent
        refine ⟨hcount, ?_, ?_, ?_⟩
        · rw [hsecond]
        · rw [hsecond]
        · intro c2 k
          exact processEventWithDeduplication_dup env cn c2 log k _ r hfound
      · by_cases hd2 : (log.topics.head? == some (env.sha3 redeemedPrototype)) = true
        · rw [if_neg hd1, if_pos hd2] at h2
          have key := phase_run_twice (redeemedPhase env cn contract log) store0
            (log.transactionHash.getD "")
            (fun ed hed => redeemedPhase_ok_txHash env cn contract log ed hed)
            h1 h2
          obtain ⟨hcount, ⟨r, hfound⟩, hsecond⟩ := key
          simp only [hdisp, if_neg hd1, if_pos hd2]
          unfold processRedeemedEvent
          refine ⟨hcount, ?_, ?_, ?_⟩
          · rw [hsecond]
          · rw [hsecond]
          · intro c2 k
            exact processEventWithDeduplication_dup env cn c2 log k _ r hfound
        · rw [if_neg hd1, if_neg hd2] at h2
          dsimp only at h2
          cases h2

/-! ## Concrete fixtures used by the witnesses -/

/-- A concrete RPC environment: a tagging signature hash and a successful
block-timestamp lookup. -/
def testEnv : Web3Env :=
  { sha3 := fun s => "sig:" ++ s
    blockTimestamp := fun _ => some 1700000000
    now := "2026-01-01T00:00:00.000Z" }

/-- The same environment with a failing block-timestamp lookup. -/
def testEnvNoTs : Web3Env :=
  { sha3 := fun s => "sig:" ++ s
    blockTimestamp := fun _ => none
    now := "2026-01-01T00:00:00.000Z" }

/-- A configured contract (mixed-case address). -/
def testContract : ContractConfig := { address := "0xAbC1", name := "AlloVault" }

/-- A well-formed Deposited log for the configured contract. -/
def depTestLog : RawLog :=
  { address := some "0xABC1"
    topics := ["sig:" ++ depositedPrototype, "0xuser", "0xasset", "0xstable"]
    data := some [500, 70, 3]
    blockNumber := some 123
    transactionHash := some "0xdep" }

/-- A well-formed Redeemed log for the configured contract. -/
def redTestLog : RawLog :=
  { address := some "0xABC1"
    topics := ["sig:" ++ redeemedPrototype, "0xuser", "0xasset", "0xstable"]
    data := some [70, 480, 2]
    blockNumber := some 124
    transactionHash := some "0xred" }

/-- A log whose signature topic matches neither tracked event kind. -/
def unknownSigTestLog : RawLog :=
  { address := some "0xABC1"
    topics := ["sig:Other(address)", "0xuser", "0xasset", "0xstable"]
    data := some [1, 2, 3]
    blockNumber := some 125
    transactionHash := some "0xother" }

/-- A malformed log: only three topics. -/
def malformedTestLog : RawLog :=
  { address := some "0xABC1"
    topics := ["sig:" ++ depositedPrototype, "0xuser", "0xasset"]
    data := some [9, 8, 7]
    blockNumber := some 126
    transactionHash := some "0xmal" }

/-- Witness for C1: the concrete Deposited log ingested twice against an
initially empty store. -/
theorem ingestion_idempotent_witness :
    findByTxHash [] (depTestLog.transactionHash.getD "") = none ∧
    (processLog testEnv "bsc" [testContract] depTestLog []).outcome
      = some StoreOutcome.Stored ∧
    (((processLog testEnv "bsc" [testContract] depTestLog []).store.countP
        (fun e => e.transaction_hash == depTestLog.transactionHash.getD "") = 1) ∧
      (processLog testEnv "bsc" [testContract] depTestLog
          (processLog testEnv "bsc" [testContract] depTestLog []).store).store
        = (processLog testEnv "bsc" [testContract] depTestLog []).store ∧
      (processLog testEnv "bsc" [testContract] depTestLog
          (processLog testEnv "bsc" [testContract] depTestLog []).store).outcome
        = some StoreOutcome.Skipped ∧
      (∀ contract eventType,
        processEventWithDeduplication testEnv "bsc" contract depTestLog eventType
            (processLog testEnv "bsc" [testContract] depTestLog []).store
          = ((processLog testEnv "bsc" [testContract] depTestLog []).store, false))) :=
  ⟨by decide, by decide,
    ingestion_idempotent testEnv "bsc" [testContract] depTestLog []
      (by decide) (by decide)⟩

/-- C2: field mirroring of the persisted record.  For a log whose decode
yields the non-indexed words `(word0, word1, word2)`, Deposited processing
persists `amount_deposited = word0` (the decoded `amount`),
`tokens_minted = word1` (the decoded `tokenAmount`), zeroes
`tokens_redeemed`/`amount_returned` and keeps `fee = word2`; Redeemed
processing, whose payload is decoded in the order
`(tokenAmount, amount, fee)`, persists `tokens_redeemed = word0`,
`amount_returned = word1`, zeroes `amount_deposited`/`tokens_minted` and
keeps `fee = word2`. -/
theorem field_mirroring (env : Web3Env) (cn : String) (c : ContractConfig)
    (log : RawLog) (store : List StockManagerEvent) (d : DecodedLog)
    (hv : logHasRequiredFields log = true)
    (hd : decodeLog log = some d)
    (hn : findByTxHash store (log.transactionHash.getD "") = none) :
    (∃ rec, (processDepositedEvent env cn c log store).store = store ++ [rec] ∧
      rec.amount_deposited = some (toString d.word0) ∧
      rec.tokens_minted = some (toString d.word1) ∧
      rec.tokens_redeemed = some "0" ∧
      rec.amount_returned = some "0" ∧
      rec.fee = toString d.word2) ∧
    (∃ rec, (processRedeemedEvent env cn c log store).store = store ++ [rec] ∧
      rec.tokens_redeemed = some (toString d.word0) ∧
      rec.amount_returned = some (toString d.word1) ∧
      rec.amount_deposited = some "0" ∧
      rec.tokens_minted = some "0" ∧
      rec.fee = toString d.word2) := by
  constructor
  · unfold processDepositedEvent
    simp only [depositedPhase, hv, hd, if_true]
    rw [processWithPhase_ok, storeEventInDatabase_new _ _ hn]
    exact ⟨_, rfl, rfl, rfl, rfl, rfl, rfl⟩
  · unfold processRedeemedEvent
    simp only [redeemedPhase, hv, hd, if_true]
    rw [processWithPhase_ok, storeEventInDatabase_new _ _ hn]
    exact ⟨_, rfl, rfl, rfl, rfl, rfl, rfl⟩

/-- The decode of `depTestLog`. -/
def depTestDecoded : DecodedLog :=
  { user := "0xuser", assetToken := "0xasset", stablecoin := "0xstable",
    word0 := 500, word1 := 70, word2 := 3 }

/-- The decode of `redTestLog`. -/
def redTestDecoded : DecodedLog :=
  { user := "0xuser", assetToken := "0xasset", stablecoin := "0xstable",
    word0 := 70, word1 := 480, word2 := 2 }

/-- Witness for C2 at the concrete Deposited log with decoded words
(500, 70, 3). -/
theorem field_mirroring_witness :
    logHasRequiredFields depTestLog = true ∧
    decodeLog depTestLog = some depTestDecoded ∧
    ((∃ rec, (processDepositedEvent testEnv "bsc" testContract depTestLog []).store
        = [] ++ [rec] ∧
      rec.amount_deposited = some (toString depTestDecoded.word0) ∧
      rec.tokens_minted = some (toString depTestDecoded.word1) ∧
      rec.tokens_redeemed = some "0" ∧
      rec.amount_returned = some "0" ∧
      rec.fee = toString depTestDecoded.word2) ∧
    (∃ rec, (processRedeemedEvent testEnv "bsc" testContract depTestLog []).store
        = [] ++ [rec] ∧
      rec.tokens_redeemed = some (toString depTestDecoded.word0) ∧
      rec.amount_returned = some (toString depTestDecoded.word1) ∧
      rec.amount_deposited = some "0" ∧
      rec.tokens_minted = some "0" ∧
      rec.fee = toString depTestDecoded.word2)) :=
  ⟨by decide, by decide,
    field_mirroring testEnv "bsc" testContract depTestLog [] depTestDecoded
      (by decide) (by decide) (by decide)⟩

/-- C8: timestamp-degradation fallback.  When the block-timestamp lookup
fails (or the timestamp is absent), decoding and storage still complete:
the event is stored, and both its `date` and raw `timestamp` fields are
populated with the current wall-clock time, so downstream consumers can
detect the degraded timestamp (a successful lookup instead records the
ISO date and the numeric timestamp string). -/
theorem timestamp_degradation_fallback (env : Web3Env) (cn : String)
    (c : ContractConfig) (log : RawLog) (store : List StockManagerEvent)
    (d : DecodedLog)
    (hv : logHasRequiredFields log = true)
    (hd : decodeLog log = some d)
    (hts : env.blockTimestamp (log.blockNumber.getD 0) = none)
    (hn : findByTxHash store (log.transactionHash.getD "") = none) :
    (∃ rec, (processDepositedEvent env cn c log store).store = store ++ [rec] ∧
      (processDepositedEvent env cn c log store).outcome
        = some StoreOutcome.Stored ∧
      rec.date = env.now ∧ rec.timestamp = env.now) ∧
    (∃ rec, (processRedeemedEvent env cn c log store).store = store ++ [rec] ∧
      (processRedeemedEvent env cn c log store).outcome
        = some StoreOutcome.Stored ∧
      rec.date = env.now ∧ rec.timestamp = env.now) := by
  constructor
  · unfold processDepositedEvent
    simp only [depositedPhase, hv, hd, if_true, getBlockDateFromTimestamp, hts]
    rw [processWithPhase_ok, storeEventInDatabase_new _ _ hn]
    exact ⟨_, rfl, rfl, rfl, rfl⟩
  · unfold processRedeemedEvent
    simp only [redeemedPhase, hv, hd, if_true, getBlockDateFromTimestamp, hts]
    rw [processWithPhase_ok, storeEventInDatabase_new _ _ hn]
    exact ⟨_, rfl, rfl, rfl, rfl⟩

/-- Witness for C8 at the concrete Deposited log with a failing
block-timestamp lookup. -/
theorem timestamp_degradation_fallback_witness :
    testEnvNoTs.blockTimestamp (depTestLog.blockNumber.getD 0) = none ∧
    ((∃ rec, (processDepositedEvent testEnvNoTs "bsc" testContract depTestLog []).store
        = [] ++ [rec] ∧
      (processDepositedEvent testEnvNoTs "bsc" testContract depTestLog []).outcome
        = some StoreOutcome.Stored ∧
      rec.date = testEnvNoTs.now ∧ rec.timestamp = testEnvNoTs.now) ∧
    (∃ rec, (processRedeemedEvent testEnvNoTs "bsc" testContract depTestLog []).store
        = [] ++ [rec] ∧
      (processRedeemedEvent testEnvNoTs "bsc" testContract depTestLog []).outcome
        = some StoreOutcome.Stored ∧
      rec.date = testEnvNoTs.now ∧ rec.timestamp = testEnvNoTs.now)) :=
  ⟨by decide,
    timestamp_degradation_fallback testEnvNoTs "bsc" testContract depTestLog []
      depTestDecoded (by decide) (by decide) (by decide) (by decide)⟩

/-- C5: signature partition.  A log whose first topic equals neither the
Deposited nor the Redeemed signature hash is dropped by `processLog`
without any ABI decode attempt and without reaching the gate, leaving the
store unchanged. -/
theorem signature_partition (env : Web3Env) (cn : String)
    (contracts : List ContractConfig) (log : RawLog)
    (store : List StockManagerEvent) (t0 : String)
    (h0 : log.topics.head? = some t0)
    (hdep : t0 ≠ env.sha3 depositedPrototype)
    (hred : t0 ≠ env.sha3 redeemedPrototype) :
    (processLog env cn contracts log store).store = store ∧
    (processLog env cn contracts log store).decodeAttempted = false ∧
    (processLog env cn contracts log store).outcome = none := by
  cases ha : log.address with
  | none => simp [processLog, ha]
  | some addr =>
    cases hf : contracts.find? (fun c => toLowerStr c.address == toLowerStr addr) with
    | none => simp [processLog, ha, hf]
    | some contract =>
      have hb1 : ¬((log.topics.head? == some (env.sha3 depositedPrototype)) = true) := by
        rw [h0]
        simp [hdep]
      have hb2 : ¬((log.topics.head? == some (env.sha3 redeemedPrototype)) = true) := by
        rw [h0]
        simp [hred]
      rw [processLog_dispatch env cn contracts log store addr contract ha hf,
        if_neg hb1, if_neg hb2]
      exact ⟨rfl, rfl, rfl⟩

/-- Witness for C5 at a concrete log with an untracked signature topic. -/
theorem signature_partition_witness :
    unknownSigTestLog.topics.head? = some "sig:Other(address)" ∧
    "sig:Other(address)" ≠ testEnv.sha3 depositedPrototype ∧
    "sig:Other(address)" ≠ testEnv.sha3 redeemedPrototype ∧
    ((processLog testEnv "bsc" [testContract] unknownSigTestLog []).store = [] ∧
     (processLog testEnv "bsc" [testContract] unknownSigTestLog []).decodeAttempted
       = false ∧
     (processLog testEnv "bsc" [testContract] unknownSigTestLog []).outcome = none) :=
  ⟨by decide, by decide, by decide,
    signature_partition testEnv "bsc" [testContract] unknownSigTestLog []
      "sig:Other(address)" (by decide) (by decide) (by decide)⟩

/-- C6 (amended): the event kind is decided by comparing `log.topics[0]`
against the two signature hashes obtained by applying `web3.utils.sha3` to
the canonical event prototype strings; however the two hashes are
recomputed inside `processLog` on every invocation (once the owning
contract is resolved), not precomputed once. -/
theorem signature_comparison_amended (env : Web3Env) (cn : String)
    (contracts : List ContractConfig) (log : RawLog)
    (store : List StockManagerEvent) (addr : String) (contract : ContractConfig)
    (ha : log.address = some addr)
    (hf : contracts.find? (fun c => toLowerStr c.address == toLowerStr addr)
            = some contract) :
    (processLog env cn contracts log store).sha3Calls
      = [depositedPrototype, redeemedPrototype] ∧
    ((processLog env cn contracts log store).routed = some EventKind.Deposited ↔
      log.topics.head? = some (env.sha3 depositedPrototype)) ∧
    ((processLog env cn contracts log store).routed = some EventKind.Redeemed ↔
      (log.topics.head? = some (env.sha3 redeemedPrototype) ∧
       log.topics.head? ≠ some (env.sha3 depositedPrototype))) := by
  rw [processLog_dispatch env cn contracts log store addr contract ha hf]
  by_cases hd1 : (log.topics.head? == some (env.sha3 depositedPrototype)) = true
  · rw [if_pos hd1]
    rw [beq_iff_eq] at hd1
    refine ⟨rfl, ?_, ?_⟩
    · simp [hd1]
    · simp [hd1]
  · have hd1e : log.topics.head? ≠ some (env.sha3 depositedPrototype) := by
      intro hcon
      exact hd1 (by rw [hcon]; exact beq_self_eq_true _)
    rw [if_neg hd1]
    by_cases hd2 : (log.topics.head? == some (env.sha3 redeemedPrototype)) = true
    · rw [if_pos hd2]
      rw [beq_iff_eq] at hd2
      have hne : env.sha3 redeemedPrototype ≠ env.sha3 depositedPrototype := by
        intro he
        exact hd1e (by rw [hd2, he])
      refine ⟨rfl, ?_, ?_⟩
      · simp [hd1e]
      · simp [hd2, hne]
    · have hd2e : log.topics.head? ≠ some (env.sha3 redeemedPrototype) := by
        intro hcon
        exact hd2 (by rw [hcon]; exact beq_self_eq_true _)
      rw [if_neg hd2]
      refine ⟨rfl, ?_, ?_⟩
      · simp [hd1e]
      · simp [hd2e]

/-- Witness for C6 (amended) at the concrete Deposited log. -/
theorem signature_comparison_amended_witness :
    depTestLog.address = some "0xABC1" ∧
    ([testContract].find?
        (fun c => toLowerStr c.address == toLowerStr "0xABC1") = some testContract) ∧
    ((processLog testEnv "bsc" [testContract] depTestLog []).sha3Calls
        = [depositedPrototype, redeemedPrototype] ∧
    ((processLog testEnv "bsc" [testContract] depTestLog []).routed
        = some EventKind.Deposited ↔
      depTestLog.topics.head? = some (testEnv.sha3 depositedPrototype)) ∧
    ((processLog testEnv "bsc" [testContract] depTestLog []).routed
        = some EventKind.Redeemed ↔
      (depTestLog.topics.head? = some (testEnv.sha3 redeemedPrototype) ∧
       depTestLog.topics.head? ≠ some (testEnv.sha3 depositedPrototype)))) :=
  ⟨by decide, by decide,
    signature_comparison_amended testEnv "bsc" [testContract] depTestLog []
      "0xABC1" testContract (by decide) (by decide)⟩

/-- C6 counterexample: the signature hashes are not precomputed once per
process — each `processLog` invocation applies `sha3` to both canonical
prototype strings again, so processing two logs performs four hash
computations instead of the two a once-precomputed scheme would need. -/
theorem signature_precomputed_once_false :
    (processLog testEnv "bsc" [testContract] depTestLog []).sha3Calls
        = [depositedPrototype, redeemedPrototype] ∧
    (processLog testEnv "bsc" [testContract] redTestLog []).sha3Calls
        = [depositedPrototype, redeemedPrototype] ∧
    ((processLog testEnv "bsc" [testContract] depTestLog []).sha3Calls.length
      + (processLog testEnv "bsc" [testContract] redTestLog []).sha3Calls.length)
        = 4 ∧
    (4 : Nat) ≠ 2 :=
  ⟨by decide, by decide, by decide, by decide⟩

/-- C7 (amended): in the stock-manager module a log missing required
fields (fewer than four topics, or absent data, block number or
transaction hash) is rejected by the validation guard before any ABI
decode, with nothing stored; the events-schema module however performs no
such pre-decode validation — its Deposited processing attempts the ABI
decode directly on every log, and when the decode fails the error is
caught with nothing stored. -/
theorem malformed_log_rejection_amended (env : Web3Env) (cn : String)
    (c : ContractConfig) (log : RawLog)
    (hv : logHasRequiredFields log = false) :
    (∀ store, processDepositedEvent env cn c log store
        = { store := store, decodeAttempted := false, outcome := none }) ∧
    (∀ store, processRedeemedEvent env cn c log store
        = { store := store, decodeAttempted := false, outcome := none }) ∧
    (∀ estore, (processDepositedEventEvents env cn c log estore).decodeAttempted
        = true) ∧
    (∀ estore, decodeLog log = none →
        processDepositedEventEvents env cn c log estore
          = { store := estore, decodeAttempted := true, outcome := none }) := by
  refine ⟨?_, ?_, ?_, ?_⟩
  · intro store
    unfold processDepositedEvent depositedPhase
    simp [hv, processWithPhase]
  · intro store
    unfold processRedeemedEvent redeemedPhase
    simp [hv, processWithPhase]
  · intro estore
    cases hd : decodeLog log <;> simp [processDepositedEventEvents, hd]
  · intro estore hd
    simp [processDepositedEventEvents, hd]

/-- Witness for C7 (amended) at the concrete three-topic log. -/
theorem malformed_log_rejection_amended_witness :
    logHasRequiredFields malformedTestLog = false ∧
    processDepositedEvent testEnv "bsc" testContract malformedTestLog []
      = { store := [], decodeAttempted := false, outcome := none } ∧
    processRedeemedEvent testEnv "bsc" testContract malformedTestLog []
      = { store := [], decodeAttempted := false, outcome := none } ∧
    (processDepositedEventEvents testEnv "bsc" testContract malformedTestLog []).decodeAttempted
      = true ∧
    decodeLog malformedTestLog = none ∧
    processDepositedEventEvents testEnv "bsc" testContract malformedTestLog []
      = { store := [], decodeAttempted := true, outcome := none } :=
  ⟨by decide,
    (malformed_log_rejection_amended testEnv "bsc" testContract malformedTestLog
      (by decide)).1 [],
    (malformed_log_rejection_amended testEnv "bsc" testContract malformedTestLog
      (by decide)).2.1 [],
    (malformed_log_rejection_amended testEnv "bsc" testContract malformedTestLog
      (by decide)).2.2.1 [],
    by decide,
    (malformed_log_rejection_amended testEnv "bsc" testContract malformedTestLog
      (by decide)).2.2.2 [] (by decide)⟩

/-- C7 counterexample: a log with only three topics is missing required
fields, yet the events-schema Deposited processing attempts the ABI decode
on it instead of rejecting it beforehand. -/
theorem malformed_log_rejection_events_false :
    logHasRequiredFields malformedTestLog = false ∧
    (processDepositedEventEvents testEnv "bsc" testContract malformedTestLog
        []).decodeAttempted = true :=
  ⟨by decide, by decide⟩

/-- C4: manual-backfill bounds.  `triggerManualBackfill` through its public
endpoint rejects block counts 0 and 50001 before any historical-log query
is issued (bounds 1-50000), and for block count 10000 issues the window
queries starting from `currentBlock - 10000` clamped to at least 0. -/
theorem manual_backfill_bounds :
    (∀ currentBlock : Int, triggerBackfillEndpoint currentBlock 0
        = Except.error "Block count must be between 1 and 50000") ∧
    (∀ currentBlock : Int, triggerBackfillEndpoint currentBlock 50001
        = Except.error "Block count must be between 1 and 50000") ∧
    (∀ currentBlock : Int, triggerBackfillEndpoint currentBlock 10000
        = Except.ok (backfillPastLogQueries
            (max 0 (currentBlock - 10000)).toNat currentBlock.toNat)) := by
  refine ⟨?_, ?_, ?_⟩ <;> intro cb <;>
    simp [triggerBackfillEndpoint, backfillFromBlock]

/-! ## Window coverage lemmas for the backfill loop -/

lemma backfillWindows_pos (f t bs : Nat) (hb : 0 < bs) (hft : f ≤ t) :
    backfillWindows f t bs
      = (f, min (f + bs - 1) t) :: backfillWindows (f + bs) t bs := by
  rw [backfillWindows]
  rw [dif_pos ⟨hb, hft⟩]

lemma backfillWindows_stop (f t bs : Nat) (h : t < f) :
    backfillWindows f t bs = [] := by
  rw [backfillWindows]
  rw [dif_neg]
  omega

lemma backfillWindows_countP (bs block : Nat) (hb : 0 < bs) :
    ∀ n f t, t + 1 - f ≤ n →
      (backfillWindows f t bs).countP
          (fun w => decide (w.1 ≤ block ∧ block ≤ w.2))
        = if f ≤ block ∧ block ≤ t then 1 else 0 := by
  intro n
  induction n with
  | zero =>
    intro f t hn
    rw [backfillWindows_stop f t bs (by omega)]
    rw [if_neg (by omega)]
    rfl
  | succ n ih =>
    intro f t hn
    by_cases hft : f ≤ t
    · rw [backfillWindows_pos f t bs hb hft, List.countP_cons,
        ih (f + bs) t (by omega)]
      simp only [decide_eq_true_eq]
      rcases Nat.le_total (f + bs - 1) t with hmin | hmin
      · rw [Nat.min_eq_left hmin]
        split_ifs <;> omega
      · rw [Nat.min_eq_right hmin]
        split_ifs <;> omega
    · rw [backfillWindows_stop f t bs (by omega)]
      rw [if_neg (by omega)]
      rfl

lemma backfillWindows_eval :
    backfillWindows 1000 2500 1000 = [(1000, 1999), (2000, 2500)] := by
  rw [backfillWindows_pos 1000 2500 1000 (by norm_num) (by norm_num),
    backfillWindows_pos 2000 2500 1000 (by norm_num) (by norm_num),
    backfillWindows_stop 3000 2500 1000 (by norm_num)]
  norm_num

/-- C3 (amended): the backfill loop with window size 1000 partitions any
closed block range with no block omitted and no block double-queried
(every block in `[fromBlock, toBlock]` lies in exactly one window, each
window end clamped to `toBlock`); concretely, backfilling `[1000, 2500]`
iterates exactly 2 windows, `[1000, 1999]` and `[2000, 2500]`, issuing 4
`getPastLogs` queries (one per event kind per window) — not 3. -/
theorem window_coverage :
    (∀ f t block : Nat,
      (backfillWindows f t 1000).countP
          (fun w => decide (w.1 ≤ block ∧ block ≤ w.2))
        = if f ≤ block ∧ block ≤ t then 1 else 0) ∧
    backfillWindows 1000 2500 1000 = [(1000, 1999), (2000, 2500)] ∧
    (backfillPastLogQueries 1000 2500).length = 4 := by
  refine ⟨?_, backfillWindows_eval, ?_⟩
  · intro f t block
    exact backfillWindows_countP 1000 block (by norm_num) (t + 1 - f) f t le_rfl
  · rw [backfillPastLogQueries, backfillWindows_eval]
    rfl

/-- C3 counterexample: backfilling `[1000, 2500]` does not issue 3 window
queries — the loop iterates 2 windows and issues 4 `getPastLogs` queries
(one per event kind per window). -/
theorem window_coverage_three_queries_false :
    (backfillWindows 1000 2500 1000).length = 2 ∧ (2 : Nat) ≠ 3 ∧
    (backfillPastLogQueries 1000 2500).length = 4 ∧ (4 : Nat) ≠ 3 := by
  refine ⟨?_, by norm_num, ?_, by norm_num⟩
  · rw [backfillWindows_eval]
    rfl
  · rw [backfillPastLogQueries, backfillWindows_eval]
    rfl

/-! ## Connection-pass lemmas -/

lemma connectToChain_ok_shape (env : ConnEnv) (c : BlockchainConfig)
    (st s : ConnState) (h : connectToChain env c st = Except.ok s) :
    ∃ extra, s.connections = st.connections ++ [c.name] ∧
      s.subscriptions = st.subscriptions ++ extra := by
  unfold connectToChain at h
  split at h
  · cases h
  · split at h
    · cases h
    · cases h
      unfold subscribeToEvents
      split
      · split
        · exact ⟨[c.name ++ "-logs"], rfl, rfl⟩
        · exact ⟨[], rfl, (List.append_nil _).symm⟩
      · exact ⟨[], rfl, (List.append_nil _).symm⟩

lemma connectToMultipleChains_mono (env : ConnEnv)
    (configs : List BlockchainConfig) :
    ∀ st : ConnState,
      (∀ x, x ∈ st.connections
        → x ∈ (connectToMultipleChains env configs st).connections) ∧
      (∀ x, x ∈ st.subscriptions
        → x ∈ (connectToMultipleChains env configs st).subscriptions) := by
  induction configs with
  | nil => exact fun st => ⟨fun x h => h, fun x h => h⟩
  | cons c rest ih =>
    intro st
    rw [connectToMultipleChains]
    cases hcc : connectToChain env c st with
    | error e => exact ih st
    | ok s =>
      obtain ⟨extra, hconn, hsub⟩ := connectToChain_ok_shape env c st s hcc
      constructor
      · intro x hx
        exact (ih s).1 x (by rw [hconn]; exact List.mem_append_left _ hx)
      · intro x hx
        exact (ih s).2 x (by rw [hsub]; exact List.mem_append_left _ hx)

lemma contains_append_self (l : List String) (a : String) :
    (l ++ [a]).contains a = true := by
  induction l with
  | nil => simp [List.contains]
  | cons b bs ih => simp [List.contains] at ih ⊢

lemma connectToChain_success (env : ConnEnv) (c : BlockchainConfig)
    (st : ConnState)
    (hurl : isBlankStr c.wssUrl = false)
    (hid : env.chainIdOk c = true)
    (hsub : env.subscribeOk c.name = true) :
    connectToChain env c st = Except.ok
      { connections := st.connections ++ [c.name],
        subscriptions := st.subscriptions ++ [c.name ++ "-logs"] } := by
  unfold connectToChain
  rw [if_neg (by simp [hurl]), if_neg (by simp [hid])]
  unfold subscribeToEvents
  dsimp only
  rw [if_pos (contains_append_self st.connections c.name), if_pos hsub]

/-- C9: partial-failure isolation of connection setup.  For any sequence
of configured networks, a network whose own connect succeeds (non-blank
URL, live chain-id probe, successful subscription) ends the connection
pass with a held connection and a live log subscription, regardless of
connect failures of any other networks in the sequence. -/
theorem partial_failure_isolation (env : ConnEnv)
    (configs : List BlockchainConfig) (c : BlockchainConfig) (st0 : ConnState)
    (hc : c ∈ configs)
    (hurl : isBlankStr c.wssUrl = false)
    (hid : env.chainIdOk c = true)
    (hsub : env.subscribeOk c.name = true) :
    c.name ∈ (connectToMultipleChains env configs st0).connections ∧
    (c.name ++ "-logs") ∈ (connectToMultipleChains env configs st0).subscriptions := by
  induction configs generalizing st0 with
  | nil => cases hc
  | cons c0 rest ih =>
    rw [connectToMultipleChains]
    rcases List.mem_cons.mp hc with rfl | hc2
    · rw [connectToChain_success env c st0 hurl hid hsub]
      have mono := connectToMultipleChains_mono env rest
        { connections := st0.connections ++ [c.name],
          subscriptions := st0.subscriptions ++ [c.name ++ "-logs"] }
      exact ⟨mono.1 _ (by simp), mono.2 _ (by simp)⟩
    · cases hcc : connectToChain env c0 st0 with
      | error e => exact ih st0 hc2
      | ok s => exact ih s hc2

/-- Three configured networks; the middle one fails its chain-id probe. -/
def cfgAlpha : BlockchainConfig :=
  { name := "alpha", wssUrl := "wss://node-a", chainId := 1,
    contracts := [testContract] }

/-- Second test network (the failing one). -/
def cfgBeta : BlockchainConfig :=
  { name := "beta", wssUrl := "wss://node-b", chainId := 2, contracts := [] }

/-- Third test network. -/
def cfgGamma : BlockchainConfig :=
  { name := "gamma", wssUrl := "wss://node-c", chainId := 3, contracts := [] }

/-- Connection environment in which only the `beta` network fails its
chain-id liveness probe. -/
def connTestEnv : ConnEnv :=
  { chainIdOk := fun cfg => cfg.name != "beta"
    subscribeOk := fun _ => true }

/-- Witness for C9: with three networks whose second fails to connect, the
first and third still hold connections and live subscriptions after the
pass. -/
theorem partial_failure_isolation_witness :
    connTestEnv.chainIdOk cfgBeta = false ∧
    (cfgAlpha.name ∈ (connectToMultipleChains connTestEnv
        [cfgAlpha, cfgBeta, cfgGamma] ⟨[], []⟩).connections ∧
      (cfgAlpha.name ++ "-logs") ∈ (connectToMultipleChains connTestEnv
        [cfgAlpha, cfgBeta, cfgGamma] ⟨[], []⟩).subscriptions) ∧
    (cfgGamma.name ∈ (connectToMultipleChains connTestEnv
        [cfgAlpha, cfgBeta, cfgGamma] ⟨[], []⟩).connections ∧
      (cfgGamma.name ++ "-logs") ∈ (connectToMultipleChains connTestEnv
        [cfgAlpha, cfgBeta, cfgGamma] ⟨[], []⟩).subscriptions) :=
  ⟨by decide,
    partial_failure_isolation connTestEnv [cfgAlpha, cfgBeta, cfgGamma]
      cfgAlpha ⟨[], []⟩ (by decide) (by decide) (by decide) (by decide),
    partial_failure_isolation connTestEnv [cfgAlpha, cfgBeta, cfgGamma]
      cfgGamma ⟨[], []⟩ (by decide) (by decide) (by decide) (by decide)⟩

/-- C10: calling `storePreviousEvents` with an explicit `fromBlock` of 0
does not scan from block 0 — the JS default kicks in for the falsy value,
so the scan starts at `max 0 (currentBlock - 80000)` in the stock-manager
module (`max 0 (currentBlock - 100000)` in the events-schema module),
exactly as if `fromBlock` had been omitted. -/
theorem store_previous_events_zero_from_block :
    ∀ currentBlock : Int,
      storePreviousStartStock (some 0) currentBlock
          = max 0 (currentBlock - 80000) ∧
      storePreviousStartStock (some 0) currentBlock
          = storePreviousStartStock none currentBlock ∧
      storePreviousStartEvents (some 0) currentBlock
          = max 0 (currentBlock - 100000) ∧
      storePreviousStartEvents (some 0) currentBlock
          = storePreviousStartEvents none currentBlock := by
  intro cb
  refine ⟨rfl, rfl, rfl, rfl⟩

end AlloEventTracker
